import Mathlib

/-!
Verification of the dynamic-form layer in `feincms3_forms/models.py`.

The Python source is embedded shallowly: Django model rows become Lean
structures, querysets become ordered lists, Python dicts become ordered
association lists with overwrite-on-insert semantics, and fallible code
returns `Except`.
-/

set_option autoImplicit false

namespace Feincms3Forms

/-- A Python runtime value as it appears in the embedded fragment of
`models.py`: strings, booleans, `None`, opaque objects (identified by a
numeric id: imported modules, classes, callables, `forms.Form`, ...) and
static lists of region keys (`Region(key=...)` sequences). -/
inductive PyObj where
  | str : String → PyObj
  | bool : Bool → PyObj
  | pyNone : PyObj
  | obj : Nat → PyObj
  | regionList : List String → PyObj
  deriving DecidableEq

deriving instance DecidableEq for Except

/-- First-match association-list lookup.  Our inserts keep keys unique, so
this is exactly Python `dict` indexing. -/
def dictGet {α β : Type} [DecidableEq α] : List (α × β) → α → Option β
  | [], _ => none
  | p :: rest, k => if p.1 = k then some p.2 else dictGet rest k

/-- `k in d` for an association list. -/
def dictHasKey {α β : Type} [DecidableEq α] : List (α × β) → α → Bool
  | [], _ => false
  | p :: rest, k => if p.1 = k then true else dictHasKey rest k

/-- `d[k] = v` on a Python `dict`: overwrite the existing entry in place
(keeping insertion order) or append a fresh one. -/
def pyDictInsert {α β : Type} [DecidableEq α] (d : List (α × β)) (k : α) (v : β) :
    List (α × β) :=
  if dictHasKey d k then d.map (fun q => if q.1 = k then (k, v) else q) else d ++ [(k, v)]

/-- Build a Python `dict` from a pair sequence (duplicate keys: later wins,
as in a `dict` comprehension). -/
def pyDictOf {α β : Type} [DecidableEq α] (ps : List (α × β)) : List (α × β) :=
  ps.foldl (fun d q => pyDictInsert d q.1 q.2) []

/-- Little-endian base-10 digits with explicit fuel, so that the kernel
can evaluate it (`Nat.digits` is well-founded recursion). -/
def decDigitsAux : Nat → Nat → List Nat
  | 0, _ => []
  | _ + 1, 0 => []
  | fuel + 1, n + 1 => ((n + 1) % 10) :: decDigitsAux fuel ((n + 1) / 10)

/-- Little-endian base-10 digits of `n`. -/
def decDigits (n : Nat) : List Nat :=
  decDigitsAux n n

/-- The decimal digit characters of `n`, most significant first, with the
Python convention `f"{0}" = "0"`. -/
def decChars (n : Nat) : List Char :=
  if n = 0 then ['0'] else ((decDigits n).map Nat.digitChar).reverse

/-- Python `f"{n}"` for a natural number `n`. -/
def pyFStringNat (n : Nat) : String :=
  String.mk (decChars n)

/-- The alias `f"__val_{index}"` used by `get_formfields_union`. -/
def valAlias (index : Nat) : String :=
  "__val_" ++ pyFStringNat index

/-- One stored plugin row: its `parent` foreign key (the owning
`ConfiguredForm` primary key), its `name` column (`NameField`) and the
remaining columns. -/
structure PluginRow where
  parent : Nat
  name : String
  extra : String → PyObj

/-- The database column `a` of a row (`name` is the column every
`FormFieldBase` subclass shares). -/
def PluginRow.col (r : PluginRow) (a : String) : PyObj :=
  if a = "name" then PyObj.str r.name else r.extra a

/-- A plugin model class, as `get_formfields_union` sees it. -/
structure PluginType where
  /-- `issubclass(plugin, FormFieldBase)` -/
  isFormFieldSub : Bool
  /-- attributes for which `plugin._meta.get_field(attribute)` succeeds -/
  modelFieldNames : List String
  /-- `getattr(plugin, attribute, None)`; `PyObj.pyNone` when the class has
  no such Python-level attribute (or it is `None`) -/
  classAttr : String → PyObj
  /-- `plugin.objects`, in queryset order -/
  objectsAll : List PluginRow

/-- A query annotation: either a column reference `F(attribute)` or a
literal `Value(...)`. -/
inductive Annotation where
  | F : String → Annotation
  | V : PyObj → Annotation

/-- Django output field types appearing in `FIELD_DEFAULTS`. -/
inductive DjangoFieldType where
  | BooleanField
  | TextField

/-- The hard-coded fallback table for attributes missing from both the
plugin model and the plugin class. -/
def FIELD_DEFAULTS : List (String × (PyObj × DjangoFieldType)) :=
  [("is_collapsible", (PyObj.bool false, DjangoFieldType.BooleanField)),
   ("is_collapse_below", (PyObj.bool false, DjangoFieldType.BooleanField)),
   ("is_collapsed_by_default", (PyObj.bool false, DjangoFieldType.BooleanField))]

/-- The annotation chosen for one requested attribute of one plugin type:
a genuine column beats a non-`None` class attribute beats the
`FIELD_DEFAULTS` entry (with `("", TextField)` as the final fallback). -/
def annotationFor (p : PluginType) (a : String) : Annotation :=
  if a ∈ p.modelFieldNames then Annotation.F a
  else
    match p.classAttr a with
    | PyObj.pyNone =>
        Annotation.V ((dictGet FIELD_DEFAULTS a).getD (PyObj.str "", DjangoFieldType.TextField)).1
    | v => Annotation.V v

/-- Evaluating an annotation against one row. -/
def evalAnn (r : PluginRow) : Annotation → PyObj
  | Annotation.F a => r.col a
  | Annotation.V v => v

/-- `columns`: the `(alias, attribute)` pairs built by enumerating the
requested attributes. -/
def columnsFor (attrs : List String) : List (String × String) :=
  attrs.enum.map (fun ia => (valAlias ia.1, ia.2))

/-- The `annotations` dict one plugin type gets (`alias ↦ F/Value`). -/
def annotationsFor (p : PluginType) (columns : List (String × String)) :
    List (String × Annotation) :=
  columns.map (fun c => (c.1, annotationFor p c.2))

/-- `values_list(*values)` on one row: every requested name is resolved
against the annotations first, else read as a plain column. -/
def valuesListRow (r : PluginRow) (anns : List (String × Annotation))
    (values : List String) : List PyObj :=
  values.map (fun v =>
    match dictGet anns v with
    | some ann => evalAnn r ann
    | none => r.col v)

/-- The tuple `values_list("name", __val_0, ...)` produces for one row. -/
def projectedRow (attrs : List String) (p : PluginType) (r : PluginRow) : List PyObj :=
  valuesListRow r (annotationsFor p (columnsFor attrs))
    ("name" :: (columnsFor attrs).map Prod.fst)

/-- `plugin.objects.filter(parent=self).annotate(...).values_list(*values)`. -/
def pluginQueryset (selfPk : Nat) (attrs : List String) (p : PluginType) :
    List (List PyObj) :=
  (p.objectsAll.filter (fun r => r.parent == selfPk)).map (projectedRow attrs p)

inductive UnionError where
  | indexError
  deriving DecidableEq

/-- `attributes or []`. -/
def pyAttrsOr (attributes : Option (List String)) : List String :=
  match attributes with
  | none => []
  | some l => l

/-- The final list comprehension: `(row[0], {column[1]: value for column,
value in zip(columns, row[1:])})`. -/
def rowEntry (attrs : List String) (row : List PyObj) : PyObj × List (String × PyObj) :=
  (row.headD PyObj.pyNone, pyDictOf (((columnsFor attrs).map Prod.snd).zip row.tail))

/-- `ConfiguredForm.get_formfields_union(self, *, plugins, attributes=None)`.
Plugin types that do not subclass `FormFieldBase` are skipped; the final
`reduce(..., querysets[1:], querysets[0])` raises `IndexError` when no
queryset was collected. -/
def get_formfields_union (selfPk : Nat) (plugins : List PluginType)
    (attributes : Option (List String)) :
    Except UnionError (List (PyObj × List (String × PyObj))) :=
  match (plugins.filter (fun p => p.isFormFieldSub)).map
      (pluginQueryset selfPk (pyAttrsOr attributes)) with
  | [] => Except.error UnionError.indexError
  | q :: rest =>
      Except.ok ((rest.foldl (fun acc qs => acc ++ qs) q).map
        (rowEntry (pyAttrsOr attributes)))

/-- Specification-level resolution of one attribute for one row: exactly
the column / class attribute / default cascade. -/
def resolveAttribute (p : PluginType) (r : PluginRow) (a : String) : PyObj :=
  evalAnn r (annotationFor p a)

/-- Closed form of the union query's output: per eligible plugin type, per
row of the target aggregate, the pair `(name, {attribute: resolved value})`,
in supplied order. -/
def unionSpecRows (selfPk : Nat) (plugins : List PluginType) (attrs : List String) :
    List (PyObj × List (String × PyObj)) :=
  ((plugins.filter (fun p => p.isFormFieldSub)).map (fun p =>
    (p.objectsAll.filter (fun r => r.parent == selfPk)).map (fun r =>
      (PyObj.str r.name, pyDictOf (attrs.map (fun a => (a, resolveAttribute p r a))))))).flatten

/-- Example plugin types for concrete instantiations: a `SimpleField`-like
table, a `Duration`-like table with a class-level attribute, and a
`PlainText`-like plugin that does not subclass `FormFieldBase`. -/
def simpleFieldRowExample : PluginRow :=
  { parent := 1, name := "email",
    extra := fun a => if a = "label" then PyObj.str "Email" else PyObj.pyNone }

def simpleFieldExample : PluginType :=
  { isFormFieldSub := true
    modelFieldNames := ["id", "parent", "name", "label", "is_required", "help_text"]
    classAttr := fun _ => PyObj.pyNone
    objectsAll := [simpleFieldRowExample] }

def durationRowExample : PluginRow :=
  { parent := 1, name := "stay",
    extra := fun a => if a = "label_from" then PyObj.str "From" else PyObj.pyNone }

def durationExample : PluginType :=
  { isFormFieldSub := true
    modelFieldNames := ["id", "parent", "name", "label_from", "label_until"]
    classAttr := fun a => if a = "card_title" then PyObj.str "Duration" else PyObj.pyNone
    objectsAll := [durationRowExample] }

def plainTextExample : PluginType :=
  { isFormFieldSub := false
    modelFieldNames := ["id", "parent", "text"]
    classAttr := fun _ => PyObj.pyNone
    objectsAll := [{ parent := 1, name := "", extra := fun _ => PyObj.pyNone }] }

/-- The union output for the two example field plugins. -/
def unionOutputExample : List (PyObj × List (String × PyObj)) :=
  (get_formfields_union 1 [simpleFieldExample, durationExample]
    (some ["label", "is_collapsible"])).toOption.getD []

/-! ### `FormType` and its lazy dotted-path attribute resolution -/

/-- `\w` for the ASCII identifiers appearing in this code base (Python's
`\w` is Unicode-aware; the dotted module paths resolved here are ASCII). -/
def pyWordChar (c : Char) : Bool :=
  c.isAlphanum || c = '_'

/-- The part after the first dot: `([\w\.]+)+`, i.e. a nonempty run of
word characters and dots. -/
def dottedTail (cs : List Char) : Bool :=
  !cs.isEmpty && cs.all (fun c => pyWordChar c || c = '.')

def dottedPathAux : List Char → Bool
  | [] => false
  | '.' :: rest => dottedTail rest
  | c :: rest => pyWordChar c && dottedPathAux rest

/-- `re.match(r"^\w+\.([\w\.]+)+$", s)`: a nonempty word-character prefix,
a dot, then a nonempty run of word characters and dots. -/
def dottedPath : List Char → Bool
  | [] => false
  | c :: rest => pyWordChar c && dottedPathAux rest

/-- How `django.utils.module_loading.import_string` fails: the module
cannot be imported (`ModuleNotFoundError`) or the module imports but has
no such attribute (a plain `ImportError`, which is *not* a
`ModuleNotFoundError`). -/
inductive ImportFailure where
  | moduleNotFound
  | attributeNotFound
  deriving DecidableEq

/-- An error escaping attribute access: `AttributeError`/`KeyError` for a
missing attribute, or the unsuppressed `ImportError`. -/
inductive GetattrError where
  | attributeError
  | importError
  deriving DecidableEq

/-- The Python environment around `FormType`: `import_string`, plus
callability and calls for `regions` callables. -/
structure PyEnv where
  resolve : String → Except ImportFailure PyObj
  isCallableObj : Nat → Bool
  callObj : Nat → Nat → PyObj

/-- A `FormType` instance: `raw` is the keyword storage the content-editor
`Type` base class reads in its `__getattr__`, `instCache` is the instance
`__dict__`, which normal attribute lookup checks first and `setattr`
writes to. -/
structure FormType where
  raw : List (String × PyObj)
  instCache : List (String × PyObj)
  deriving DecidableEq

/-- `setattr(self, attr, value)`. -/
def cacheAdd (ft : FormType) (attr : String) (v : PyObj) : FormType :=
  { ft with instCache := pyDictInsert ft.instCache attr v }

/-- The body of `FormType.__getattr__`: fetch the raw value via
`super().__getattr__` (an `AttributeError` if absent), resolve string
values matching the dotted pattern through `import_string` inside
`contextlib.suppress(ModuleNotFoundError)` — so a plain `ImportError`
escapes — and cache the outcome with `setattr`. -/
def dunderGetattr (env : PyEnv) (ft : FormType) (attr : String) :
    Except GetattrError (PyObj × FormType) :=
  match dictGet ft.raw attr with
  | none => Except.error GetattrError.attributeError
  | some value =>
    match value with
    | PyObj.str s =>
      if dottedPath s.toList then
        match env.resolve s with
        | Except.ok v => Except.ok (v, cacheAdd ft attr v)
        | Except.error ImportFailure.moduleNotFound =>
            Except.ok (PyObj.str s, cacheAdd ft attr (PyObj.str s))
        | Except.error ImportFailure.attributeNotFound =>
            Except.error GetattrError.importError
      else Except.ok (PyObj.str s, cacheAdd ft attr (PyObj.str s))
    | v => Except.ok (v, cacheAdd ft attr v)

/-- Python attribute access on a `FormType` instance: the instance
`__dict__` wins; `__getattr__` runs only on a miss. -/
def pyGetattr (env : PyEnv) (ft : FormType) (attr : String) :
    Except GetattrError (PyObj × FormType) :=
  match dictGet ft.instCache attr with
  | some v => Except.ok (v, ft)
  | none => dunderGetattr env ft attr

/-! ### `ConfiguredForm.regions` and the class-preparation type lookup -/

/-- `callable(x)` for our value universe. -/
def pyCallable (env : PyEnv) : PyObj → Bool
  | PyObj.obj n => env.isCallableObj n
  | _ => false

/-- Calling a callable regions value with the configured form. -/
def pyCall (env : PyEnv) (v : PyObj) (arg : Nat) : PyObj :=
  match v with
  | PyObj.obj n => env.callObj n arg
  | _ => PyObj.pyNone

/-- A `ConfiguredForm` row: primary key, `name` and `form_type` columns. -/
structure ConfiguredFormState where
  pk : Nat
  name : String
  form_type : String

/-- `{type.key: type for type in sender.FORMS}` built by
`fill_form_choices` at class-preparation time (accessing `.key` goes
through `pyGetattr`, whose cache updates are kept). -/
def buildTypes (env : PyEnv) :
    List FormType → List (PyObj × FormType) →
      Except GetattrError (List (PyObj × FormType))
  | [], acc => Except.ok acc
  | ft :: rest, acc =>
    match pyGetattr env ft "key" with
    | Except.error e => Except.error e
    | Except.ok (k, ft2) => buildTypes env rest (pyDictInsert acc k ft2)

/-- `ConfiguredForm.regions`: `self.type` is `types.get(self.form_type)`;
`None.regions` or a missing `regions` raises `AttributeError`/`KeyError`,
both caught and turned into `[]`; a callable regions value is called with
the instance. -/
def ConfiguredForm_regions (env : PyEnv) (types : List (PyObj × FormType))
    (cf : ConfiguredFormState) : Except GetattrError PyObj :=
  match dictGet types (PyObj.str cf.form_type) with
  | none => Except.ok (PyObj.regionList [])
  | some t =>
    match pyGetattr env t "regions" with
    | Except.error GetattrError.attributeError => Except.ok (PyObj.regionList [])
    | Except.error e => Except.error e
    | Except.ok (v, _) =>
        Except.ok (if pyCallable env v then pyCall env v cf.pk else v)

/-- The `contact` form type of the test app. -/
def contactFormType : FormType :=
  { raw := [("key", PyObj.str "contact"), ("label", PyObj.str "contact form"),
            ("regions", PyObj.regionList ["form"]),
            ("validate", PyObj.str "testapp.forms.validate_contact_form"),
            ("process", PyObj.str "testapp.forms.process_contact_form"),
            ("form_class", PyObj.obj 0)]
    instCache := [] }

/-- The `other-fields` form type of the test app, with a dotted-path
`form_class`. -/
def otherFieldsFormType : FormType :=
  { raw := [("key", PyObj.str "other-fields"), ("label", PyObj.str "other fields"),
            ("regions", PyObj.regionList []),
            ("form_class", PyObj.str "testapp.forms.OtherFieldsForm"),
            ("validate", PyObj.obj 1)]
    instCache := [] }

/-- A form type whose `form_class` names an attribute its module lacks. -/
def formTypeUnresolvable : FormType :=
  { raw := [("key", PyObj.str "contact"),
            ("form_class", PyObj.str "testapp.forms.Missing")]
    instCache := [] }

/-- An environment where exactly `testapp.forms.OtherFieldsForm` resolves
and any other import attempt fails with `ModuleNotFoundError`. -/
def envResolvesForms : PyEnv :=
  { resolve := fun s =>
      if s = "testapp.forms.OtherFieldsForm" then Except.ok (PyObj.obj 7)
      else Except.error ImportFailure.moduleNotFound
    isCallableObj := fun _ => false
    callObj := fun _ _ => PyObj.pyNone }

/-- An environment where every import attempt finds the module but not the
attribute, so `import_string` raises a plain `ImportError`. -/
def envAttributeMissing : PyEnv :=
  { resolve := fun _ => Except.error ImportFailure.attributeNotFound
    isCallableObj := fun _ => false
    callObj := fun _ _ => PyObj.pyNone }

/-! ### `NameField` -/

def RANDOM_STRING_CHARS : List Char :=
  "abcdefghijklmnopqrstuvwxyz0123456789".toList

/-- The contract of `get_random_string(10, allowed_chars=RANDOM_STRING_CHARS)`
(`django.utils.crypto`, external randomness modelled as an oracle): ten
characters drawn from the allowed alphabet. -/
def get_random_string_spec (suffix : String) : Prop :=
  suffix.length = 10 ∧ ∀ c ∈ suffix.toList, c ∈ RANDOM_STRING_CHARS

/-- `NameField.to_python`: `CharField.to_python` passes strings and `None`
through; a falsy result (`None` or the empty string) is replaced by
`f"field_{get_random_string(10, allowed_chars=RANDOM_STRING_CHARS)}"`. -/
def NameField_to_python (suffix : String) (value : Option String) : String :=
  match value with
  | none => "field_" ++ suffix
  | some v => if v = "" then "field_" ++ suffix else v

/-- A character in the validator's class `[a-z0-9_]`. -/
def nameAllowedChar (c : Char) : Bool :=
  ('a' ≤ c && c ≤ 'z') || ('0' ≤ c && c ≤ '9') || c = '_'

/-- `re.search(r"^[a-z0-9_]+$", s)` as Django's `RegexValidator` runs it:
`^` anchors at the start, and `$` matches at the end of the string *or
just before one trailing newline* (Python `re` semantics without
`re.MULTILINE`). -/
def nameRegexSearch (s : String) : Bool :=
  (!s.toList.isEmpty && s.toList.all nameAllowedChar) ||
    (s.toList.getLast? == some '\n' && !s.toList.dropLast.isEmpty &&
      s.toList.dropLast.all nameAllowedChar)

/-- A field-scoped validation failure carrying the field it is attached to
and the offending value named in its message. -/
structure FieldValidationError where
  field : String
  offending : String
  deriving DecidableEq

/-- Running the field's `RegexValidator` over a cleaned value. -/
def NameField_run_validators (s : String) : Except FieldValidationError Unit :=
  if nameRegexSearch s then Except.ok ()
  else Except.error { field := "name", offending := s }

/-- `^field_[a-z0-9]{10}$`. -/
def fieldTokenPattern (s : String) : Bool :=
  decide (s.toList.take 6 = "field_".toList) &&
    decide ((s.toList.drop 6).length = 10) &&
    (s.toList.drop 6).all (fun c => ('a' ≤ c && c ≤ 'z') || ('0' ≤ c && c ≤ '9'))

/-! ### `FormField` and its visibility policy -/

/-- The columns of the abstract `FormField` model (scripts are optional
text columns). -/
structure FormFieldState where
  name : String
  label : String
  is_required : Bool
  help_text : String
  is_table_visible : Bool
  is_modal_visible : Bool
  is_card_visible : Bool
  is_modal_detail_visible : Bool
  is_visible : Bool
  is_editable : Bool
  is_required_to_move : Bool
  use_script : Bool
  execute_on_first_save : Bool
  execute_on_every_save : Bool
  python_script : Option String
  validation_python_script : Option String

/-- `FormField.should_show_field(self, is_update=False)`. -/
def should_show_field (f : FormFieldState) (is_update : Bool) : Bool :=
  if !f.is_visible then false
  else if f.is_editable then true
  else !is_update

def invisibleFieldExample : FormFieldState :=
  { name := "secret", label := "Secret", is_required := true, help_text := ""
    is_table_visible := true, is_modal_visible := true, is_card_visible := false
    is_modal_detail_visible := true, is_visible := false, is_editable := true
    is_required_to_move := false, use_script := false
    execute_on_first_save := false, execute_on_every_save := false
    python_script := none, validation_python_script := none }

def editableFieldExample : FormFieldState :=
  { invisibleFieldExample with name := "email", is_visible := true, is_editable := true }

def lockedFieldExample : FormFieldState :=
  { invisibleFieldExample with name := "created_by", is_visible := true, is_editable := false }

/-! ### `SimpleFieldBase`: choice parsing and default-value validation -/

/-- Characters Python `str.strip()` removes (ASCII whitespace). -/
def isPySpace (c : Char) : Bool :=
  c = ' ' || c = '\t' || c = '\n' || c = '\r' || c = '\x0b' || c = '\x0c'

/-- Python `str.strip()`. -/
def pyStrip (s : String) : String :=
  String.mk (((s.toList.dropWhile isPySpace).reverse.dropWhile isPySpace).reverse)

/-- Normalize Python `str.splitlines` break characters to `'\n'`
(`"\r\n"` counts as a single break). -/
def normNewlines : List Char → List Char
  | [] => []
  | '\r' :: '\n' :: rest => '\n' :: normNewlines rest
  | c :: rest =>
      (if c = '\r' || c = '\x0b' || c = '\x0c' || c = '\x1c' || c = '\x1d' ||
          c = '\x1e' || c = '\x85' || c = '\u2028' || c = '\u2029'
       then '\n' else c) :: normNewlines rest

/-- Split on `'\n'`, always yielding one (possibly empty) piece more than
the number of breaks. -/
def splitOnNl : List Char → List (List Char)
  | [] => [[]]
  | '\n' :: rest => [] :: splitOnNl rest
  | c :: rest =>
    match splitOnNl rest with
    | [] => [[c]]
    | l :: ls => (c :: l) :: ls

/-- Python `str.splitlines()`: no trailing empty piece for a terminal
break, and the empty string has no lines. -/
def pySplitlines (s : String) : List String :=
  match normNewlines s.toList with
  | [] => []
  | cs =>
    if cs.getLast? == some '\n' then ((splitOnNl cs).map String.mk).dropLast
    else (splitOnNl cs).map String.mk

/-- Python `value.split("|", 1)`. -/
def pySplitPipe1 (s : String) : List String :=
  if s.toList.contains '|' then
    [String.mk (s.toList.takeWhile (fun c => c != '|')),
     String.mk ((s.toList.dropWhile (fun c => c != '|')).drop 1)]
  else [s]

/-- The local `_choice(value)` of `SimpleFieldBase.get_choices`: split on
the first pipe and strip the parts; a line without a pipe yields the
*original* line twice. -/
def choiceOfLine (value : String) : String × String :=
  match (pySplitPipe1 value).map pyStrip with
  | [_] => (value, value)
  | [a, b] => (a, b)
  | _ => (value, value)

/-- The columns of `SimpleFieldBase` beyond the inherited `FormField`
ones. -/
structure SimpleFieldState where
  formField : FormFieldState
  type : String
  choices : String
  placeholder : String
  default_value : String
  max_length : Option Nat

/-- `SimpleFieldBase.get_choices`: one `_choice` per non-empty line. -/
def get_choices (st : SimpleFieldState) : List (String × String) :=
  ((pySplitlines st.choices).filter (fun v => v != "")).map choiceOfLine

/-- The `default_value` part of `SimpleFieldBase.clean_fields`: with
non-empty `choices` and `default_value`, a default absent from
`dict(self.get_choices())` raises a validation failure attached to
`default_value` and naming the offending value. -/
def clean_fields_default_check (st : SimpleFieldState) :
    Except FieldValidationError Unit :=
  if st.choices != "" && st.default_value != "" &&
      !(dictHasKey (pyDictOf (get_choices st)) st.default_value) then
    Except.error { field := "default_value", offending := st.default_value }
  else Except.ok ()

def selectFieldExample : SimpleFieldState :=
  { formField := editableFieldExample
    type := "select"
    choices := "a|Label A\nsolo\n\nlast"
    placeholder := ""
    default_value := "b"
    max_length := none }

/-! ### The `FormFieldBase` plugin contract -/

inductive ContractError where
  | notImplementedError (message : String)
  deriving DecidableEq

/-- A concrete plugin type seen through the contract: its
`_meta.label_lower` and which of the four methods it overrides. -/
structure PluginContract where
  label_lower : String
  get_fields_override : Option (List (String × PyObj))
  get_initial_override : Option (List (String × PyObj))
  get_cleaners_override : Option (List Nat)
  get_loaders_override : Option (List Nat)

/-- `get_fields`: the base implementation raises `NotImplementedError`. -/
def FormFieldBase_get_fields (impl : PluginContract) :
    Except ContractError (List (String × PyObj)) :=
  match impl.get_fields_override with
  | some fields => Except.ok fields
  | none => Except.error (ContractError.notImplementedError
      (impl.label_lower ++ " needs a get_fields implementation"))

/-- `get_initial`: the base implementation returns no initial values. -/
def FormFieldBase_get_initial (impl : PluginContract) : List (String × PyObj) :=
  impl.get_initial_override.getD []

/-- `get_cleaners`: the base implementation returns no cleaners. -/
def FormFieldBase_get_cleaners (impl : PluginContract) : List Nat :=
  impl.get_cleaners_override.getD []

/-- `get_loaders`: the base implementation raises `NotImplementedError`. -/
def FormFieldBase_get_loaders (impl : PluginContract) :
    Except ContractError (List Nat) :=
  match impl.get_loaders_override with
  | some loaders => Except.ok loaders
  | none => Except.error (ContractError.notImplementedError
      (impl.label_lower ++ " needs a get_loaders implementation"))

/-- A plugin type overriding none of the contract methods. -/
def bareContractExample : PluginContract :=
  { label_lower := "testapp.captchafield"
    get_fields_override := none
    get_initial_override := none
    get_cleaners_override := none
    get_loaders_override := none }

/-! ### Theorems -/

theorem dictGet_eq_none_of_not_mem {α β : Type} [DecidableEq α]
    (d : List (α × β)) (k : α) (h : k ∉ d.map Prod.fst) : dictGet d k = none := by
  induction d with
  | nil => rfl
  | cons p rest ih =>
    simp only [List.map_cons, List.mem_cons] at h
    push_neg at h
    simp only [dictGet, if_neg (fun hk : p.1 = k => h.1 hk.symm), ih h.2]

theorem dictGet_isSome_of_mem {α β : Type} [DecidableEq α]
    (d : List (α × β)) (k : α) (h : k ∈ d.map Prod.fst) : (dictGet d k).isSome := by
  induction d with
  | nil => simp at h
  | cons p rest ih =>
    simp only [List.map_cons, List.mem_cons] at h
    by_cases hk : p.1 = k
    · simp [dictGet, hk]
    · simp only [dictGet, if_neg hk]
      exact ih (h.resolve_left (fun he => hk he.symm))

theorem dictGet_of_valueFun {α β : Type} [DecidableEq α]
    (f : α → β) (d : List (α × β)) (k : α)
    (hv : ∀ q ∈ d, q.2 = f q.1) (h : k ∈ d.map Prod.fst) :
    dictGet d k = some (f k) := by
  induction d with
  | nil => simp at h
  | cons p rest ih =>
    simp only [List.map_cons, List.mem_cons] at h
    by_cases hk : p.1 = k
    · have hp := hv p (by simp)
      simp only [dictGet, if_pos hk]
      rw [hp, hk]
    · simp only [dictGet, if_neg hk]
      exact ih (fun q hq => hv q (List.mem_cons_of_mem _ hq))
        (h.resolve_left (fun he => hk he.symm))

theorem mem_keys_overwrite {α β : Type} [DecidableEq α]
    (d : List (α × β)) (k : α) (v : β) (h : dictHasKey d k = true) :
    k ∈ (d.map (fun q => if q.1 = k then (k, v) else q)).map Prod.fst := by
  induction d with
  | nil => simp [dictHasKey] at h
  | cons p rest ih =>
    by_cases hp : p.1 = k
    · simp [hp]
    · simp only [dictHasKey, if_neg hp] at h
      simp only [List.map_cons, if_neg hp, List.mem_cons]
      exact Or.inr (ih h)

theorem mem_keys_pyDictInsert {α β : Type} [DecidableEq α]
    (d : List (α × β)) (k : α) (v : β) (a : α) :
    a ∈ (pyDictInsert d k v).map Prod.fst ↔ a ∈ d.map Prod.fst ∨ a = k := by
  unfold pyDictInsert
  split
  · next hmem =>
    constructor
    · intro h
      rcases List.mem_map.1 h with ⟨q, hq, hfst⟩
      rcases List.mem_map.1 hq with ⟨q0, hq0, hq0e⟩
      by_cases h0 : q0.1 = k
      · simp only [if_pos h0] at hq0e
        subst hq0e
        right; exact hfst.symm
      · simp only [if_neg h0] at hq0e
        subst hq0e
        left; exact hfst ▸ List.mem_map_of_mem Prod.fst hq0
    · intro h
      rcases h with h | h
      · rcases List.mem_map.1 h with ⟨q0, hq0, hfst⟩
        by_cases h0 : q0.1 = k
        · subst hfst
          -- the overwritten entry keeps the same key
          refine List.mem_map.2 ⟨(k, v), List.mem_map.2 ⟨q0, hq0, by simp [h0]⟩, h0.symm⟩
        · exact List.mem_map.2 ⟨q0, List.mem_map.2 ⟨q0, hq0, by simp [h0]⟩, hfst⟩
      · exact h ▸ mem_keys_overwrite d k v hmem
  · next =>
    simp only [List.map_append, List.mem_append]
    constructor
    · intro h
      rcases h with h | h
      · exact Or.inl h
      · right; simpa using h
    · intro h
      rcases h with h | h
      · exact Or.inl h
      · right; simpa using h

theorem pyDictInsert_valueFun {α β : Type} [DecidableEq α]
    (f : α → β) (d : List (α × β)) (k : α)
    (hv : ∀ q ∈ d, q.2 = f q.1) :
    ∀ q ∈ pyDictInsert d k (f k), q.2 = f q.1 := by
  intro q hq
  unfold pyDictInsert at hq
  split at hq
  · rcases List.mem_map.1 hq with ⟨q0, hq0, hq0e⟩
    by_cases h0 : q0.1 = k
    · simp only [if_pos h0] at hq0e; subst hq0e; rfl
    · simp only [if_neg h0] at hq0e; subst hq0e; exact hv q0 hq0
  · rcases List.mem_append.1 hq with h | h
    · exact hv q h
    · simp only [List.mem_singleton] at h; subst h; rfl

theorem pyDictOf_valueFun_aux {α β : Type} [DecidableEq α]
    (f : α → β) (l : List α) :
    ∀ (d : List (α × β)), (∀ q ∈ d, q.2 = f q.1) →
      ∀ q ∈ (l.map (fun a => (a, f a))).foldl (fun d q => pyDictInsert d q.1 q.2) d,
        q.2 = f q.1 := by
  induction l with
  | nil => intro d hd; simpa using hd
  | cons x xs ih =>
    intro d hd
    simp only [List.map_cons, List.foldl_cons]
    exact ih (pyDictInsert d x (f x)) (pyDictInsert_valueFun f d x hd)

theorem pyDictOf_keys_aux {α β : Type} [DecidableEq α]
    (f : α → β) (l : List α) (a : α) :
    ∀ (d : List (α × β)), (a ∈ d.map Prod.fst ∨ a ∈ l) →
      a ∈ ((l.map (fun x => (x, f x))).foldl
        (fun d q => pyDictInsert d q.1 q.2) d).map Prod.fst := by
  induction l with
  | nil => intro d h; simpa using h.resolve_right (by simp)
  | cons x xs ih =>
    intro d h
    simp only [List.map_cons, List.foldl_cons]
    apply ih
    by_cases hax : a = x
    · exact Or.inl ((mem_keys_pyDictInsert d x (f x) a).2 (Or.inr hax))
    · rcases h with h | h
      · exact Or.inl ((mem_keys_pyDictInsert d x (f x) a).2 (Or.inl h))
      · rcases List.mem_cons.1 h with h | h
        · exact absurd h hax
        · exact Or.inr h

/-- Looking up a requested key in a `dict` comprehension whose values are a
function of the key returns exactly that function's value. -/
theorem dictGet_pyDictOf_map {α β : Type} [DecidableEq α]
    (f : α → β) (l : List α) (a : α) (ha : a ∈ l) :
    dictGet (pyDictOf (l.map (fun x => (x, f x)))) a = some (f a) := by
  apply dictGet_of_valueFun f
  · exact pyDictOf_valueFun_aux f l [] (by simp)
  · exact pyDictOf_keys_aux f l a [] (Or.inr ha)

theorem mem_keys_pyDictOf_iff {α β : Type} [DecidableEq α]
    (ps : List (α × β)) (a : α) :
    a ∈ (pyDictOf ps).map Prod.fst ↔ a ∈ ps.map Prod.fst := by
  suffices h : ∀ (d : List (α × β)),
      a ∈ (ps.foldl (fun d q => pyDictInsert d q.1 q.2) d).map Prod.fst ↔
        a ∈ d.map Prod.fst ∨ a ∈ ps.map Prod.fst by
    simpa using h []
  induction ps with
  | nil => intro d; simp
  | cons p rest ih =>
    intro d
    simp only [List.foldl_cons, ih (pyDictInsert d p.1 p.2),
      mem_keys_pyDictInsert, List.map_cons, List.mem_cons]
    tauto

/-! ### Decimal rendering of a natural number, as Python `f"{index}"` does.

`get_formfields_union` builds one query alias `f"__val_{index}"` per
requested attribute.  The whole aliasing scheme is sound only because
distinct indices render to distinct strings, so we prove injectivity. -/

theorem digitChar_inj_fin : ∀ a b : Fin 10, Nat.digitChar a.val = Nat.digitChar b.val → a = b := by
  decide

theorem digitChar_inj {a b : Nat} (ha : a < 10) (hb : b < 10)
    (h : Nat.digitChar a = Nat.digitChar b) : a = b := by
  have := digitChar_inj_fin ⟨a, ha⟩ ⟨b, hb⟩ h
  exact congrArg Fin.val this

theorem map_digitChar_inj : ∀ (l₁ l₂ : List Nat), (∀ d ∈ l₁, d < 10) → (∀ d ∈ l₂, d < 10) →
    l₁.map Nat.digitChar = l₂.map Nat.digitChar → l₁ = l₂ := by
  intro l₁
  induction l₁ with
  | nil => intro l₂ _ _ h; cases l₂ <;> simp_all
  | cons a l ih =>
    intro l₂ h₁ h₂ h
    cases l₂ with
    | nil => simp at h
    | cons b l' =>
      simp only [List.map_cons, List.cons.injEq] at h
      have hab := digitChar_inj (h₁ a (by simp)) (h₂ b (by simp)) h.1
      have htl := ih l' (fun d hd => h₁ d (List.mem_cons_of_mem _ hd))
        (fun d hd => h₂ d (List.mem_cons_of_mem _ hd)) h.2
      simp [hab, htl]

theorem decDigitsAux_eq (fuel : Nat) : ∀ n ≤ fuel, decDigitsAux fuel n = Nat.digits 10 n := by
  induction fuel with
  | zero =>
    intro n hn
    have : n = 0 := Nat.le_zero.1 hn
    subst this
    simp [decDigitsAux]
  | succ fuel ih =>
    intro n hn
    cases n with
    | zero => simp [decDigitsAux]
    | succ m =>
      have hdiv : (m + 1) / 10 ≤ fuel := by
        have : (m + 1) / 10 < m + 1 := Nat.div_lt_self (Nat.succ_pos m) (by norm_num)
        omega
      rw [show decDigitsAux (fuel + 1) (m + 1) =
          ((m + 1) % 10) :: decDigitsAux fuel ((m + 1) / 10) from rfl]
      rw [ih ((m + 1) / 10) hdiv,
        Nat.digits_def' (by norm_num : 1 < 10) (Nat.succ_pos m)]

theorem decDigits_eq (n : Nat) : decDigits n = Nat.digits 10 n :=
  decDigitsAux_eq n n (Nat.le_refl n)

theorem decChars_inj {m n : Nat} (h : decChars m = decChars n) : m = n := by
  unfold decChars at h
  simp only [decDigits_eq] at h
  by_cases hm : m = 0 <;> by_cases hn : n = 0
  · exact hm.trans hn.symm
  · exfalso
    simp only [if_pos hm, if_neg hn] at h
    have h' : (Nat.digits 10 n).map Nat.digitChar = ['0'] := by
      have := congrArg List.reverse h
      simpa using this.symm
    have hdig : Nat.digits 10 n = [0] := by
      have h10 : ∀ d ∈ Nat.digits 10 n, d < 10 := fun d hd => Nat.digits_lt_base (by norm_num) hd
      have := map_digitChar_inj (Nat.digits 10 n) [0] h10 (by simp) (by simpa using h')
      simpa using this
    have : n = 0 := by
      have := Nat.ofDigits_digits 10 n
      rw [hdig] at this
      simpa [Nat.ofDigits] using this.symm
    exact hn this
  · exfalso
    simp only [if_pos hn, if_neg hm] at h
    have h' : (Nat.digits 10 m).map Nat.digitChar = ['0'] := by
      have := congrArg List.reverse h
      simpa using this
    have hdig : Nat.digits 10 m = [0] := by
      have h10 : ∀ d ∈ Nat.digits 10 m, d < 10 := fun d hd => Nat.digits_lt_base (by norm_num) hd
      have := map_digitChar_inj (Nat.digits 10 m) [0] h10 (by simp) (by simpa using h')
      simpa using this
    have : m = 0 := by
      have := Nat.ofDigits_digits 10 m
      rw [hdig] at this
      simpa [Nat.ofDigits] using this.symm
    exact hm this
  · simp only [if_neg hm, if_neg hn] at h
    have h' := List.reverse_injective h
    have h10m : ∀ d ∈ Nat.digits 10 m, d < 10 := fun d hd => Nat.digits_lt_base (by norm_num) hd
    have h10n : ∀ d ∈ Nat.digits 10 n, d < 10 := fun d hd => Nat.digits_lt_base (by norm_num) hd
    have hdig := map_digitChar_inj _ _ h10m h10n h'
    calc m = Nat.ofDigits 10 (Nat.digits 10 m) := (Nat.ofDigits_digits 10 m).symm
      _ = Nat.ofDigits 10 (Nat.digits 10 n) := by rw [hdig]
      _ = n := Nat.ofDigits_digits 10 n

theorem pyFStringNat_inj {m n : Nat} (h : pyFStringNat m = pyFStringNat n) : m = n := by
  unfold pyFStringNat at h
  exact decChars_inj (by injection h)

theorem valAlias_inj {m n : Nat} (h : valAlias m = valAlias n) : m = n := by
  unfold valAlias at h
  have hdata : ("__val_" ++ pyFStringNat m).data = ("__val_" ++ pyFStringNat n).data :=
    congrArg String.data h
  have : (pyFStringNat m).data = (pyFStringNat n).data :=
    List.append_cancel_left hdata
  exact pyFStringNat_inj (by cases hm : pyFStringNat m; cases hn : pyFStringNat n; simp_all)

theorem valAlias_ne_name (i : Nat) : valAlias i ≠ "name" := by
  intro h
  have hdata := congrArg String.data h
  have : '_' = 'n' := by
    have h2 : ('_' :: '_' :: 'v' :: 'a' :: 'l' :: '_' :: (pyFStringNat i).data) =
        ['n', 'a', 'm', 'e'] := hdata
    exact (List.cons.injEq _ _ _ _ ▸ h2).1
  simp at this

/-! ### `ConfiguredForm.get_formfields_union`

Querysets are embedded as ordered lists of rows; `union(..., all=True)`
concatenates them.  A plugin type carries the data the code inspects:
whether it subclasses `FormFieldBase`, which attributes are genuine model
columns (`_meta.get_field` succeeds), the Python class-level attributes
(`getattr(plugin, attribute, None)`) and its stored rows. -/

theorem columnsFor_map_snd (attrs : List String) :
    (columnsFor attrs).map Prod.snd = attrs := by
  unfold columnsFor
  rw [List.map_map]
  have h : (Prod.snd ∘ fun ia : Nat × String => (valAlias ia.1, ia.2)) = Prod.snd := by
    funext ia; rfl
  rw [h, List.enum_map_snd]

theorem columnsFor_map_fst (attrs : List String) :
    (columnsFor attrs).map Prod.fst = (List.range attrs.length).map valAlias := by
  unfold columnsFor
  rw [List.map_map]
  have h : (Prod.fst ∘ fun ia : Nat × String => (valAlias ia.1, ia.2)) =
      (valAlias ∘ Prod.fst) := by
    funext ia; rfl
  rw [h, ← List.map_map, List.enum_map_fst]

theorem columnsFor_keys_nodup (attrs : List String) :
    ((columnsFor attrs).map Prod.fst).Nodup := by
  rw [columnsFor_map_fst]
  exact (List.nodup_range attrs.length).map (fun a b h => valAlias_inj h)

theorem annotationsFor_map_fst (p : PluginType) (columns : List (String × String)) :
    (annotationsFor p columns).map Prod.fst = columns.map Prod.fst := by
  unfold annotationsFor
  rw [List.map_map]
  rfl

theorem dictGet_annotationsFor_name (p : PluginType) (attrs : List String) :
    dictGet (annotationsFor p (columnsFor attrs)) "name" = none := by
  apply dictGet_eq_none_of_not_mem
  rw [annotationsFor_map_fst, columnsFor_map_fst]
  intro hmem
  rcases List.mem_map.1 hmem with ⟨i, _, hi⟩
  exact valAlias_ne_name i hi

theorem valuesListRow_keyEval (r : PluginRow) :
    ∀ (cs : List (String × Annotation)), ((cs.map Prod.fst).Nodup) →
      (cs.map Prod.fst).map (fun v =>
        match dictGet cs v with
        | some ann => evalAnn r ann
        | none => r.col v) = cs.map (fun c => evalAnn r c.2) := by
  intro cs
  induction cs with
  | nil => intro _; rfl
  | cons c rest ih =>
    intro hnd
    simp only [List.map_cons]
    have hhead : dictGet (c :: rest) c.1 = some c.2 := by
      simp [dictGet]
    rw [List.map_cons] at hnd
    have hne : ∀ v ∈ rest.map Prod.fst, c.1 ≠ v := by
      intro v hv he
      exact (List.nodup_cons.1 hnd).1 (he ▸ hv)
    have htail : (rest.map Prod.fst).map (fun v =>
        match dictGet (c :: rest) v with
        | some ann => evalAnn r ann
        | none => r.col v) = (rest.map Prod.fst).map (fun v =>
        match dictGet rest v with
        | some ann => evalAnn r ann
        | none => r.col v) := by
      apply List.map_congr_left
      intro v hv
      have : dictGet (c :: rest) v = dictGet rest v := by
        simp [dictGet, if_neg (hne v hv)]
      rw [this]
    rw [hhead, htail, ih (List.nodup_cons.1 hnd).2]

theorem projectedRow_eq (attrs : List String) (p : PluginType) (r : PluginRow) :
    projectedRow attrs p r = PyObj.str r.name :: attrs.map (resolveAttribute p r) := by
  unfold projectedRow valuesListRow
  rw [List.map_cons]
  congr 1
  · rw [dictGet_annotationsFor_name]
    simp [PluginRow.col]
  · rw [← annotationsFor_map_fst p (columnsFor attrs)]
    rw [valuesListRow_keyEval r _ (by rw [annotationsFor_map_fst]; exact columnsFor_keys_nodup attrs)]
    unfold annotationsFor
    rw [List.map_map]
    have h : ((fun c : String × Annotation => evalAnn r c.2) ∘
        fun c : String × String => (c.1, annotationFor p c.2)) =
        ((fun a => resolveAttribute p r a) ∘ Prod.snd) := by
      funext c; rfl
    rw [h, ← List.map_map, columnsFor_map_snd]

theorem foldl_append_eq {α : Type} (qs : List (List α)) :
    ∀ q : List α, qs.foldl (fun acc l => acc ++ l) q = q ++ qs.flatten := by
  induction qs with
  | nil => intro q; simp
  | cons x xs ih =>
    intro q
    simp only [List.foldl_cons, List.flatten_cons, ih (q ++ x), List.append_assoc]

theorem zip_self_map {α β : Type} (l : List α) (g : α → β) :
    l.zip (l.map g) = l.map (fun a => (a, g a)) := by
  have := List.zip_map' (fun a : α => a) g l
  simpa using this

theorem rowEntry_projectedRow (attrs : List String) (p : PluginType) (r : PluginRow) :
    rowEntry attrs (projectedRow attrs p r) =
      (PyObj.str r.name, pyDictOf (attrs.map (fun a => (a, resolveAttribute p r a)))) := by
  rw [projectedRow_eq]
  unfold rowEntry
  simp only [List.headD_cons, List.tail_cons]
  rw [columnsFor_map_snd, zip_self_map]

/-- The pipeline (aliases, per-plugin annotations, `values_list`, union,
zip-back) agrees with the closed form whenever at least one plugin type
subclasses `FormFieldBase`. -/
theorem get_formfields_union_eq_spec (selfPk : Nat) (plugins : List PluginType)
    (attrs : List String) (hne : plugins.filter (fun p => p.isFormFieldSub) ≠ []) :
    get_formfields_union selfPk plugins (some attrs) =
      Except.ok (unionSpecRows selfPk plugins attrs) := by
  unfold get_formfields_union
  cases hqs : (plugins.filter (fun p => p.isFormFieldSub)).map
      (pluginQueryset selfPk (pyAttrsOr (some attrs))) with
  | nil => exact absurd (List.map_eq_nil_iff.1 hqs) hne
  | cons q rest =>
    simp only []
    congr 1
    rw [foldl_append_eq, ← List.flatten_cons, ← hqs]
    show ((plugins.filter (fun p => p.isFormFieldSub)).map
        (pluginQueryset selfPk attrs)).flatten.map (rowEntry attrs) = _
    rw [List.map_flatten, List.map_map]
    unfold unionSpecRows
    congr 1
    apply List.map_congr_left
    intro p _
    show (pluginQueryset selfPk attrs p).map (rowEntry attrs) = _
    unfold pluginQueryset
    rw [List.map_map]
    apply List.map_congr_left
    intro r _
    exact rowEntry_projectedRow attrs p r

theorem get_formfields_union_none_eq (selfPk : Nat) (plugins : List PluginType) :
    get_formfields_union selfPk plugins none =
      get_formfields_union selfPk plugins (some []) := rfl

theorem get_formfields_union_empty (selfPk : Nat) (plugins : List PluginType)
    (attributes : Option (List String))
    (h : plugins.filter (fun p => p.isFormFieldSub) = []) :
    get_formfields_union selfPk plugins attributes = Except.error UnionError.indexError := by
  unfold get_formfields_union
  rw [h]
  rfl

theorem field_defaults_value (a : String) :
    ((dictGet FIELD_DEFAULTS a).getD (PyObj.str "", DjangoFieldType.TextField)).1 =
      if a = "is_collapsible" ∨ a = "is_collapse_below" ∨ a = "is_collapsed_by_default"
      then PyObj.bool false else PyObj.str "" := by
  by_cases h1 : a = "is_collapsible"
  · subst h1; decide
  · by_cases h2 : a = "is_collapse_below"
    · subst h2; decide
    · by_cases h3 : a = "is_collapsed_by_default"
      · subst h3; decide
      · have : dictGet FIELD_DEFAULTS a = none := by
          simp only [FIELD_DEFAULTS, dictGet]
          rw [if_neg (fun h => h1 h.symm), if_neg (fun h => h2 h.symm),
            if_neg (fun h => h3 h.symm)]
        rw [this]
        simp [h1, h2, h3]

theorem resolveAttribute_cases (p : PluginType) (r : PluginRow) (a : String) :
    resolveAttribute p r a =
      if a ∈ p.modelFieldNames then r.col a
      else
        match p.classAttr a with
        | PyObj.pyNone =>
            if a = "is_collapsible" ∨ a = "is_collapse_below" ∨ a = "is_collapsed_by_default"
            then PyObj.bool false else PyObj.str ""
        | v => v := by
  unfold resolveAttribute annotationFor
  by_cases hm : a ∈ p.modelFieldNames
  · simp [hm, evalAnn]
  · simp only [if_neg hm]
    cases hv : p.classAttr a <;> simp [evalAnn, field_defaults_value]

theorem projectedRow_length (attrs : List String) (p : PluginType) (r : PluginRow) :
    (projectedRow attrs p r).length = 1 + attrs.length := by
  rw [projectedRow_eq]
  simp [Nat.add_comm]

/-- C1: every requested attribute of `get_formfields_union` is projected,
for every plugin type, by the cascade: genuine model column first, then a
non-`None` Python class attribute as a literal, then the documented
default, where `is_collapsible`, `is_collapse_below` and
`is_collapsed_by_default` default to `False` (and other attributes to the
empty string). -/
theorem claim_C1_attribute_resolution_order
    (selfPk : Nat) (plugins : List PluginType) (attrs : List String)
    (p : PluginType) (r : PluginRow) (a : String)
    (out : List (PyObj × List (String × PyObj)))
    (hp : p ∈ plugins) (hsub : p.isFormFieldSub = true)
    (hr : r ∈ p.objectsAll) (hpar : r.parent = selfPk) (ha : a ∈ attrs)
    (hout : get_formfields_union selfPk plugins (some attrs) = Except.ok out) :
    (PyObj.str r.name, pyDictOf (attrs.map (fun x => (x, resolveAttribute p r x)))) ∈ out ∧
    dictGet (pyDictOf (attrs.map (fun x => (x, resolveAttribute p r x)))) a =
      some (if a ∈ p.modelFieldNames then r.col a
            else
              match p.classAttr a with
              | PyObj.pyNone =>
                  if a = "is_collapsible" ∨ a = "is_collapse_below" ∨
                      a = "is_collapsed_by_default"
                  then PyObj.bool false else PyObj.str ""
              | v => v) := by
  have hpf : p ∈ plugins.filter (fun p => p.isFormFieldSub) :=
    List.mem_filter.2 ⟨hp, hsub⟩
  have hne : plugins.filter (fun p => p.isFormFieldSub) ≠ [] := by
    intro h; rw [h] at hpf; exact absurd hpf (List.not_mem_nil p)
  have hspec := get_formfields_union_eq_spec selfPk plugins attrs hne
  rw [hspec] at hout
  have hout' : out = unionSpecRows selfPk plugins attrs := by
    injection hout.symm
  constructor
  · rw [hout']
    unfold unionSpecRows
    apply List.mem_flatten.2
    refine ⟨(p.objectsAll.filter (fun r => r.parent == selfPk)).map (fun r =>
      (PyObj.str r.name, pyDictOf (attrs.map (fun a => (a, resolveAttribute p r a))))),
      List.mem_map_of_mem _ hpf, ?_⟩
    apply List.mem_map_of_mem
    exact List.mem_filter.2 ⟨hr, by simp [hpar]⟩
  · rw [dictGet_pyDictOf_map (resolveAttribute p r) attrs a ha]
    rw [resolveAttribute_cases]

/-- C1 witness: the concrete union over the two example plugins. -/
theorem claim_C1_attribute_resolution_order_witness :
    (PyObj.str "email",
      pyDictOf ((["label", "is_collapsible"]).map
        (fun x => (x, resolveAttribute simpleFieldExample simpleFieldRowExample x)))) ∈
      unionOutputExample ∧
    dictGet (pyDictOf ((["label", "is_collapsible"]).map
        (fun x => (x, resolveAttribute simpleFieldExample simpleFieldRowExample x))))
        "label" =
      some (if "label" ∈ simpleFieldExample.modelFieldNames
            then simpleFieldRowExample.col "label"
            else
              match simpleFieldExample.classAttr "label" with
              | PyObj.pyNone =>
                  if "label" = "is_collapsible" ∨ "label" = "is_collapse_below" ∨
                      "label" = "is_collapsed_by_default"
                  then PyObj.bool false else PyObj.str ""
              | v => v) :=
  claim_C1_attribute_resolution_order 1 [simpleFieldExample, durationExample]
    ["label", "is_collapsible"] simpleFieldExample simpleFieldRowExample "label"
    unionOutputExample (List.mem_cons_self _ _) rfl (List.mem_cons_self _ _) rfl
    (by simp) rfl

/-- C2: the union output is ordered to match the supplied row ordering
(plugin by plugin, row by row), every requested attribute has an entry in
every output row's mapping, and the projection arity is `1 + |attributes|`
for every plugin type, so mixing distinct plugin types never produces an
arity mismatch. -/
theorem claim_C2_union_order_presence_arity
    (selfPk : Nat) (plugins : List PluginType) (attrs : List String)
    (out : List (PyObj × List (String × PyObj)))
    (hout : get_formfields_union selfPk plugins (some attrs) = Except.ok out) :
    out.map Prod.fst =
      ((plugins.filter (fun p => p.isFormFieldSub)).map (fun p =>
        (p.objectsAll.filter (fun r => r.parent == selfPk)).map
          (fun r => PyObj.str r.name))).flatten ∧
    (∀ e ∈ out, ∀ a ∈ attrs, (dictGet e.2 a).isSome = true) ∧
    (∀ p : PluginType, ∀ r : PluginRow,
      (projectedRow attrs p r).length = 1 + attrs.length) := by
  have hne : plugins.filter (fun p => p.isFormFieldSub) ≠ [] := by
    intro h
    rw [get_formfields_union_empty selfPk plugins (some attrs) h] at hout
    exact Except.noConfusion hout
  have hspec := get_formfields_union_eq_spec selfPk plugins attrs hne
  rw [hspec] at hout
  have hout' : out = unionSpecRows selfPk plugins attrs := by
    injection hout.symm
  refine ⟨?_, ?_, fun p r => projectedRow_length attrs p r⟩
  · rw [hout']
    unfold unionSpecRows
    rw [List.map_flatten, List.map_map]
    congr 1
    apply List.map_congr_left
    intro p _
    simp only [Function.comp_apply, List.map_map]
    rfl
  · intro e he a ha
    rw [hout'] at he
    unfold unionSpecRows at he
    rcases List.mem_flatten.1 he with ⟨l, hl, hel⟩
    rcases List.mem_map.1 hl with ⟨p, _, hpe⟩
    subst hpe
    rcases List.mem_map.1 hel with ⟨r, _, hre⟩
    subst hre
    rw [dictGet_pyDictOf_map (resolveAttribute p r) attrs a ha]
    rfl

/-- C2 witness: concrete order, presence and arity facts for the example
plugins. -/
theorem claim_C2_union_order_presence_arity_witness :
    unionOutputExample.map Prod.fst =
      (([simpleFieldExample, durationExample].filter (fun p => p.isFormFieldSub)).map
        (fun p => (p.objectsAll.filter (fun r => r.parent == 1)).map
          (fun r => PyObj.str r.name))).flatten ∧
    (dictGet (unionOutputExample.headD (PyObj.pyNone, [])).2 "is_collapsible").isSome =
      true ∧
    (projectedRow ["label", "is_collapsible"] durationExample durationRowExample).length =
      1 + (["label", "is_collapsible"] : List String).length := by
  have h := claim_C2_union_order_presence_arity 1 [simpleFieldExample, durationExample]
    ["label", "is_collapsible"] unionOutputExample rfl
  refine ⟨h.1, ?_, h.2.2 durationExample durationRowExample⟩
  apply h.2.1 (unionOutputExample.headD (PyObj.pyNone, []))
  · show unionOutputExample.headD (PyObj.pyNone, []) ∈ unionOutputExample
    have : unionOutputExample = unionSpecRows 1 [simpleFieldExample, durationExample]
        ["label", "is_collapsible"] := by
      unfold unionOutputExample
      rw [get_formfields_union_eq_spec 1 [simpleFieldExample, durationExample]
        ["label", "is_collapsible"] (by simp [simpleFieldExample])]
      rfl
    rw [this]
    exact List.mem_cons_self _ _
  · simp

/-- C9: plugin entries that are not `FormFieldBase` subclasses are silently
skipped (the union over the filtered list is identical), and when no
supplied plugin subclasses `FormFieldBase` — including the empty plugins
list — `querysets[0]` raises `IndexError` instead of yielding an empty
result. -/
theorem claim_C9_skip_and_index_error :
    (∀ (selfPk : Nat) (plugins : List PluginType) (attributes : Option (List String)),
      get_formfields_union selfPk plugins attributes =
        get_formfields_union selfPk (plugins.filter (fun p => p.isFormFieldSub))
          attributes) ∧
    (∀ (selfPk : Nat) (plugins : List PluginType) (attributes : Option (List String)),
      plugins.filter (fun p => p.isFormFieldSub) = [] →
      get_formfields_union selfPk plugins attributes =
        Except.error UnionError.indexError) := by
  constructor
  · intro selfPk plugins attributes
    unfold get_formfields_union
    rw [List.filter_filter]
    simp
  · exact get_formfields_union_empty

/-- C9 witness: the `PlainText`-style plugin contributes nothing, and the
empty plugin list raises. -/
theorem claim_C9_skip_and_index_error_witness :
    get_formfields_union 1 [plainTextExample, simpleFieldExample] none =
      get_formfields_union 1
        ([plainTextExample, simpleFieldExample].filter (fun p => p.isFormFieldSub))
        none ∧
    get_formfields_union 1 ([] : List PluginType) (some ["label"]) =
      Except.error UnionError.indexError :=
  ⟨claim_C9_skip_and_index_error.1 1 [plainTextExample, simpleFieldExample] none,
   claim_C9_skip_and_index_error.2 1 [] (some ["label"]) rfl⟩

theorem dictGet_pyDictInsert_self {α β : Type} [DecidableEq α]
    (d : List (α × β)) (k : α) (v : β) :
    dictGet (pyDictInsert d k v) k = some v := by
  unfold pyDictInsert
  split
  · next h =>
    induction d with
    | nil => simp [dictHasKey] at h
    | cons p rest ih =>
      by_cases hp : p.1 = k
      · simp [dictGet, hp]
      · simp only [List.map_cons, dictGet, if_neg hp]
        exact ih (by simpa [dictHasKey, if_neg hp] using h)
  · next h =>
    induction d with
    | nil => simp [dictGet]
    | cons p rest ih =>
      by_cases hp : p.1 = k
      · exact absurd (by simp [dictHasKey, hp]) h
      · simp only [List.cons_append, dictGet, if_neg hp]
        exact ih (fun hh => h (by simp [dictHasKey, if_neg hp, hh]))

/-- C3 (amended): a stored string matching the dotted pattern is resolved
on first access; on success the result is cached and a second access
returns the identical object with no resolution (any environment); when
the module is not found the raw string is kept silently; when the module
imports but lacks the attribute, the `ImportError` escapes, because the
code suppresses only `ModuleNotFoundError`. -/
theorem claim_C3_dotted_resolution_amended
    (env : PyEnv) (ft : FormType) (attr s : String)
    (hcache : dictGet ft.instCache attr = none)
    (hraw : dictGet ft.raw attr = some (PyObj.str s))
    (hpat : dottedPath s.toList = true) :
    (∀ v : PyObj, env.resolve s = Except.ok v →
      pyGetattr env ft attr = Except.ok (v, cacheAdd ft attr v) ∧
      ∀ env2 : PyEnv, pyGetattr env2 (cacheAdd ft attr v) attr =
        Except.ok (v, cacheAdd ft attr v)) ∧
    (env.resolve s = Except.error ImportFailure.moduleNotFound →
      pyGetattr env ft attr = Except.ok (PyObj.str s, cacheAdd ft attr (PyObj.str s))) ∧
    (env.resolve s = Except.error ImportFailure.attributeNotFound →
      pyGetattr env ft attr = Except.error GetattrError.importError) := by
  have hbody : pyGetattr env ft attr = dunderGetattr env ft attr := by
    unfold pyGetattr
    rw [hcache]
  refine ⟨?_, ?_, ?_⟩
  · intro v hres
    constructor
    · rw [hbody]
      unfold dunderGetattr
      rw [hraw]
      simp only [if_pos hpat, hres]
    · intro env2
      unfold pyGetattr
      rw [show (cacheAdd ft attr v).instCache = pyDictInsert ft.instCache attr v from rfl,
        dictGet_pyDictInsert_self]
  · intro hres
    rw [hbody]
    unfold dunderGetattr
    rw [hraw]
    simp only [if_pos hpat, hres]
  · intro hres
    rw [hbody]
    unfold dunderGetattr
    rw [hraw]
    simp only [if_pos hpat, hres]

/-- C3 counterexample: `"testapp.forms.Missing"` matches the dotted
pattern, its module imports but lacks the attribute, and attribute access
raises the `ImportError` instead of returning the raw string — so the
claim's "not resolvable (module or attribute not found) → returned
unchanged, no failure" is false for the attribute-not-found half. -/
theorem claim_C3_dotted_resolution_counterexample :
    dottedPath "testapp.forms.Missing".toList = true ∧
    pyGetattr envAttributeMissing formTypeUnresolvable "form_class" =
      Except.error GetattrError.importError := by
  constructor
  · decide
  · rfl

/-- C3 witness: concrete resolution, caching and module-not-found
tolerance for the test app's dotted `form_class`. -/
theorem claim_C3_dotted_resolution_amended_witness :
    (pyGetattr envResolvesForms otherFieldsFormType "form_class" =
      Except.ok (PyObj.obj 7,
        cacheAdd otherFieldsFormType "form_class" (PyObj.obj 7))) ∧
    (pyGetattr envAttributeMissing
        (cacheAdd otherFieldsFormType "form_class" (PyObj.obj 7)) "form_class" =
      Except.ok (PyObj.obj 7,
        cacheAdd otherFieldsFormType "form_class" (PyObj.obj 7))) ∧
    (pyGetattr envResolvesForms contactFormType "validate" =
      Except.ok (PyObj.str "testapp.forms.validate_contact_form",
        cacheAdd contactFormType "validate"
          (PyObj.str "testapp.forms.validate_contact_form"))) := by
  have h1 := claim_C3_dotted_resolution_amended envResolvesForms otherFieldsFormType
    "form_class" "testapp.forms.OtherFieldsForm" rfl rfl (by decide)
  have h2 := claim_C3_dotted_resolution_amended envResolvesForms contactFormType
    "validate" "testapp.forms.validate_contact_form" rfl rfl (by decide)
  exact ⟨(h1.1 (PyObj.obj 7) rfl).1, (h1.1 (PyObj.obj 7) rfl).2 envAttributeMissing,
    h2.2.1 rfl⟩

theorem buildTypes_keys (env : PyEnv) :
    ∀ (fts : List FormType) (acc types : List (PyObj × FormType)),
      buildTypes env fts acc = Except.ok types →
      ∀ k ∈ types.map Prod.fst, k ∈ acc.map Prod.fst ∨
        ∃ ft ∈ fts, (pyGetattr env ft "key").toOption.map
          (fun res => res.1) = some k := by
  intro fts
  induction fts with
  | nil =>
    intro acc types h k hk
    left
    have : acc = types := by
      unfold buildTypes at h
      injection h
    exact this ▸ hk
  | cons ft rest ih =>
    intro acc types h k hk
    unfold buildTypes at h
    cases hget : pyGetattr env ft "key" with
    | error e =>
      rw [hget] at h
      exact Except.noConfusion h
    | ok res =>
      obtain ⟨k0, ft2⟩ := res
      rw [hget] at h
      rcases ih (pyDictInsert acc k0 ft2) types h k hk with hacc | ⟨ft3, hft3, he⟩
      · rcases (mem_keys_pyDictInsert acc k0 ft2 k).1 hacc with h1 | h1
        · exact Or.inl h1
        · right
          exact ⟨ft, List.mem_cons_self _ _, by rw [hget, h1]; rfl⟩
      · right
        exact ⟨ft3, List.mem_cons_of_mem _ hft3, he⟩

/-- C10: when a `ConfiguredForm`'s `form_type` matches no key of the
declared `FORMS` list, `types.get(...)` yields `None`, the resulting
`AttributeError` on `.regions` is caught, and `regions` returns the empty
list instead of raising. -/
theorem claim_C10_regions_empty_on_unknown_form_type
    (env : PyEnv) (forms : List FormType) (types : List (PyObj × FormType))
    (cf : ConfiguredFormState)
    (htypes : buildTypes env forms [] = Except.ok types)
    (hkey : ∀ ft ∈ forms,
      (pyGetattr env ft "key").toOption.map (fun res => res.1) ≠
        some (PyObj.str cf.form_type)) :
    ConfiguredForm_regions env types cf = Except.ok (PyObj.regionList []) := by
  have hnot : PyObj.str cf.form_type ∉ types.map Prod.fst := by
    intro hmem
    rcases buildTypes_keys env forms [] types htypes _ hmem with h | ⟨ft, hft, he⟩
    · simp at h
    · exact hkey ft hft he
  unfold ConfiguredForm_regions
  rw [dictGet_eq_none_of_not_mem types _ hnot]

/-- C10 witness: the test app's two form types and an unknown
`form_type`. -/
theorem claim_C10_regions_empty_on_unknown_form_type_witness :
    ConfiguredForm_regions envResolvesForms
      ((buildTypes envResolvesForms [contactFormType, otherFieldsFormType]
        []).toOption.getD [])
      { pk := 5, name := "My form", form_type := "nonexistent" } =
      Except.ok (PyObj.regionList []) :=
  claim_C10_regions_empty_on_unknown_form_type envResolvesForms
    [contactFormType, otherFieldsFormType] _
    { pk := 5, name := "My form", form_type := "nonexistent" } rfl (by decide)

theorem dictHasKey_iff_mem {α β : Type} [DecidableEq α]
    (d : List (α × β)) (k : α) :
    dictHasKey d k = true ↔ k ∈ d.map Prod.fst := by
  induction d with
  | nil => simp [dictHasKey]
  | cons p rest ih =>
    by_cases hp : p.1 = k
    · simp [dictHasKey, hp]
    · simp only [dictHasKey, if_neg hp, List.map_cons, List.mem_cons, ih]
      exact ⟨Or.inr, fun h => h.resolve_left (fun he => hp he.symm)⟩

/-- C4 counterexample: `"a\n"` violates the allowed character set, yet the
validator accepts it, because Python's `$` also matches just before a
single trailing newline. -/
theorem claim_C4_name_normalization_counterexample :
    (¬ ∀ c ∈ "a\n".toList, nameAllowedChar c = true) ∧
    NameField_run_validators "a\n" = Except.ok () := by
  constructor
  · decide
  · rfl

/-- C4 (amended): the empty value (or `None`) is normalized to a token
matching `^field_[a-z0-9]{10}$`; any non-empty string is returned
unchanged by `to_python`; and every string violating `[a-z0-9_]+` is
rejected by the field's regex validator *except* an otherwise-valid
non-empty token followed by one trailing newline, which Python's `$`
anchor accepts. -/
theorem claim_C4_name_normalization_amended
    (suffix : String) (hs : get_random_string_spec suffix) :
    fieldTokenPattern (NameField_to_python suffix none) = true ∧
    fieldTokenPattern (NameField_to_python suffix (some "")) = true ∧
    (∀ v : String, v ≠ "" → NameField_to_python suffix (some v) = v) ∧
    (∀ v : String,
      ¬ (v.toList ≠ [] ∧ ∀ c ∈ v.toList, nameAllowedChar c = true) →
      ¬ (v.toList.getLast? = some '\n' ∧ v.toList.dropLast ≠ [] ∧
          ∀ c ∈ v.toList.dropLast, nameAllowedChar c = true) →
      NameField_run_validators v =
        Except.error { field := "name", offending := v }) := by
  obtain ⟨hlen, hchars⟩ := hs
  have htoken : fieldTokenPattern ("field_" ++ suffix) = true := by
    unfold fieldTokenPattern
    have hdata : ("field_" ++ suffix).toList = "field_".toList ++ suffix.toList := rfl
    have htake : ("field_".toList ++ suffix.toList).take 6 = "field_".toList := by
      have h6 : ("field_".toList).length = 6 := by decide
      rw [← h6, List.take_left]
    have hdrop : ("field_".toList ++ suffix.toList).drop 6 = suffix.toList := by
      have h6 : ("field_".toList).length = 6 := by decide
      rw [← h6, List.drop_left]
    rw [hdata, htake, hdrop]
    simp only [Bool.and_eq_true, decide_eq_true_eq, List.all_eq_true]
    refine ⟨⟨trivial, hlen⟩, ?_⟩
    intro c hc
    have hmem := hchars c hc
    have hd : ∀ c ∈ RANDOM_STRING_CHARS,
        (('a' ≤ c && c ≤ 'z') || ('0' ≤ c && c ≤ '9')) = true := by decide
    simpa using hd c hmem
  refine ⟨htoken, htoken, ?_, ?_⟩
  · intro v hv
    simp [NameField_to_python, hv]
  · intro v h1 h2
    unfold NameField_run_validators
    have hsearch : nameRegexSearch v = false := by
      cases hb : nameRegexSearch v with
      | false => rfl
      | true =>
        exfalso
        unfold nameRegexSearch at hb
        rcases Bool.or_eq_true_iff.1 hb with hA | hB
        · rw [Bool.and_eq_true] at hA
          obtain ⟨hne, hall⟩ := hA
          refine h1 ⟨?_, ?_⟩
          · intro he
            rw [he] at hne
            simp at hne
          · intro c hc
            exact List.all_eq_true.1 hall c hc
        · rw [Bool.and_eq_true] at hB
          obtain ⟨hB1, hall⟩ := hB
          rw [Bool.and_eq_true] at hB1
          obtain ⟨hlast, hne⟩ := hB1
          refine h2 ⟨?_, ?_, ?_⟩
          · exact beq_iff_eq.1 hlast
          · intro he
            rw [he] at hne
            simp at hne
          · intro c hc
            exact List.all_eq_true.1 hall c hc
    rw [if_neg (by rw [hsearch]; exact Bool.false_ne_true)]

/-- C4 witness: a concrete random suffix, an unchanged valid name, and a
rejected invalid name. -/
theorem claim_C4_name_normalization_amended_witness :
    fieldTokenPattern (NameField_to_python "abc123xyz0" none) = true ∧
    fieldTokenPattern (NameField_to_python "abc123xyz0" (some "")) = true ∧
    NameField_to_python "abc123xyz0" (some "email") = "email" ∧
    NameField_run_validators "user name" =
      Except.error { field := "name", offending := "user name" } := by
  have h := claim_C4_name_normalization_amended "abc123xyz0" ⟨by decide, by decide⟩
  exact ⟨h.1, h.2.1, h.2.2.1 "email" (by decide),
    h.2.2.2 "user name" (by decide) (by decide)⟩

/-- C5: the truth table of `should_show_field`: an invisible field is
never shown; a visible editable field is always shown; a visible
non-editable field is shown exactly when creating (`is_update = false`). -/
theorem claim_C5_should_show_field_truth_table
    (f : FormFieldState) (is_update : Bool) :
    (f.is_visible = false → should_show_field f is_update = false) ∧
    (f.is_visible = true → f.is_editable = true →
      should_show_field f is_update = true) ∧
    (f.is_visible = true → f.is_editable = false → is_update = false →
      should_show_field f is_update = true) ∧
    (f.is_visible = true → f.is_editable = false → is_update = true →
      should_show_field f is_update = false) := by
  unfold should_show_field
  refine ⟨fun h => by simp [h], fun h1 h2 => by simp [h1, h2],
    fun h1 h2 h3 => by simp [h1, h2, h3], fun h1 h2 h3 => by simp [h1, h2, h3]⟩

/-- C5 witness: all four rows of the table on concrete fields. -/
theorem claim_C5_should_show_field_truth_table_witness :
    should_show_field invisibleFieldExample false = false ∧
    should_show_field editableFieldExample true = true ∧
    should_show_field lockedFieldExample false = true ∧
    should_show_field lockedFieldExample true = false :=
  ⟨(claim_C5_should_show_field_truth_table invisibleFieldExample false).1 rfl,
   (claim_C5_should_show_field_truth_table editableFieldExample true).2.1 rfl rfl,
   (claim_C5_should_show_field_truth_table lockedFieldExample false).2.2.1 rfl rfl rfl,
   (claim_C5_should_show_field_truth_table lockedFieldExample true).2.2.2 rfl rfl rfl⟩

theorem choiceOfLine_eq (line : String) :
    choiceOfLine line =
      if line.toList.contains '|' then
        (pyStrip (String.mk (line.toList.takeWhile (fun c => c != '|'))),
         pyStrip (String.mk ((line.toList.dropWhile (fun c => c != '|')).drop 1)))
      else (line, line) := by
  unfold choiceOfLine pySplitPipe1
  by_cases h : line.toList.contains '|'
  · rw [if_pos h, if_pos h]
    simp only [List.map_cons, List.map_nil]
  · rw [if_neg h, if_neg h]
    simp only [List.map_cons, List.map_nil]

/-- C6: `get_choices` parses every non-empty line by splitting on the
first pipe: no pipe yields `(line, line)`, a pipe yields the stripped
`(value, label)`; empty lines contribute nothing; in particular
`"a|Label A"` yields `("a", "Label A")` and `"solo"` yields
`("solo", "solo")`. -/
theorem claim_C6_choice_parsing (st : SimpleFieldState) :
    get_choices st =
      ((pySplitlines st.choices).filter (fun v => v != "")).map (fun line =>
        if line.toList.contains '|' then
          (pyStrip (String.mk (line.toList.takeWhile (fun c => c != '|'))),
           pyStrip (String.mk ((line.toList.dropWhile (fun c => c != '|')).drop 1)))
        else (line, line)) ∧
    choiceOfLine "a|Label A" = ("a", "Label A") ∧
    choiceOfLine "solo" = ("solo", "solo") ∧
    get_choices selectFieldExample =
      [("a", "Label A"), ("solo", "solo"), ("last", "last")] := by
  refine ⟨?_, by decide, by decide, by decide⟩
  unfold get_choices
  exact List.map_congr_left (fun line _ => choiceOfLine_eq line)

/-- C7: model-level field cleaning raises a failure attached to
`default_value` and naming the offending value exactly when `choices` and
`default_value` are both non-empty and the default is not among the parsed
choice values; otherwise it succeeds. -/
theorem claim_C7_default_value_validation (st : SimpleFieldState) :
    (clean_fields_default_check st =
        Except.error { field := "default_value", offending := st.default_value } ↔
      st.choices ≠ "" ∧ st.default_value ≠ "" ∧
        st.default_value ∉ (get_choices st).map Prod.fst) ∧
    (clean_fields_default_check st = Except.ok () ↔
      ¬ (st.choices ≠ "" ∧ st.default_value ≠ "" ∧
        st.default_value ∉ (get_choices st).map Prod.fst)) := by
  have hkey : dictHasKey (pyDictOf (get_choices st)) st.default_value = true ↔
      st.default_value ∈ (get_choices st).map Prod.fst := by
    rw [dictHasKey_iff_mem, mem_keys_pyDictOf_iff]
  have hcond : (st.choices != "" && st.default_value != "" &&
      !(dictHasKey (pyDictOf (get_choices st)) st.default_value)) = true ↔
      (st.choices ≠ "" ∧ st.default_value ≠ "" ∧
        st.default_value ∉ (get_choices st).map Prod.fst) := by
    simp only [Bool.and_eq_true, bne_iff_ne, ne_eq, Bool.not_eq_true']
    constructor
    · rintro ⟨⟨h1, h2⟩, h3⟩
      refine ⟨h1, h2, fun hm => ?_⟩
      rw [hkey.2 hm] at h3
      exact Bool.noConfusion h3
    · rintro ⟨h1, h2, h3⟩
      refine ⟨⟨h1, h2⟩, ?_⟩
      cases hdk : dictHasKey (pyDictOf (get_choices st)) st.default_value with
      | false => rfl
      | true => exact absurd (hkey.1 hdk) h3
  unfold clean_fields_default_check
  constructor
  · constructor
    · intro h
      by_cases hc : (st.choices != "" && st.default_value != "" &&
          !(dictHasKey (pyDictOf (get_choices st)) st.default_value)) = true
      · exact hcond.1 hc
      · rw [if_neg hc] at h
        exact Except.noConfusion h
    · intro h
      rw [if_pos (hcond.2 h)]
  · constructor
    · intro h hcnd
      rw [if_pos (hcond.2 hcnd)] at h
      exact Except.noConfusion h
    · intro h
      rw [if_neg (fun hc => h (hcond.1 hc))]

/-- C8: on the base contract, `get_initial` is empty, `get_cleaners` is
empty, and `get_fields`/`get_loaders` raise `NotImplementedError` when a
concrete type does not override them. -/
theorem claim_C8_contract_defaults
    (impl : PluginContract)
    (hf : impl.get_fields_override = none)
    (hi : impl.get_initial_override = none)
    (hc : impl.get_cleaners_override = none)
    (hl : impl.get_loaders_override = none) :
    FormFieldBase_get_initial impl = [] ∧
    FormFieldBase_get_cleaners impl = [] ∧
    FormFieldBase_get_fields impl = Except.error (ContractError.notImplementedError
      (impl.label_lower ++ " needs a get_fields implementation")) ∧
    FormFieldBase_get_loaders impl = Except.error (ContractError.notImplementedError
      (impl.label_lower ++ " needs a get_loaders implementation")) := by
  unfold FormFieldBase_get_initial FormFieldBase_get_cleaners
    FormFieldBase_get_fields FormFieldBase_get_loaders
  rw [hf, hi, hc, hl]
  exact ⟨rfl, rfl, rfl, rfl⟩

/-- C8 witness: a concrete plugin type with no overrides. -/
theorem claim_C8_contract_defaults_witness :
    FormFieldBase_get_initial bareContractExample = [] ∧
    FormFieldBase_get_cleaners bareContractExample = [] ∧
    FormFieldBase_get_fields bareContractExample =
      Except.error (ContractError.notImplementedError
        (bareContractExample.label_lower ++ " needs a get_fields implementation")) ∧
    FormFieldBase_get_loaders bareContractExample =
      Except.error (ContractError.notImplementedError
        (bareContractExample.label_lower ++ " needs a get_loaders implementation")) :=
  claim_C8_contract_defaults bareContractExample rfl rfl rfl rfl

end Feincms3Forms
